import Mathlib

/-!
Verification of the native command layer of StarBobis/warlordtools
(src/src-tauri/src/lib.rs and src/src-tauri/src/powershell_opener.rs).

The Rust code is shallowly embedded:

* The on-disk directory tree seen by `scan_filter_files` is modelled by the
  mutual inductive `FsNode` / `FsEntries`.  A directory entry name is an
  `FName`: its `text` field is the byte content of the OS file name rendered
  as a string, and its `utf8` flag records whether those bytes are valid
  UTF-8 (Rust `Path::to_str` succeeds on a path exactly when the root string
  and every traversed component are valid UTF-8).  A directory whose
  `read_dir` call fails with an I/O error is modelled by the constructor
  `FsNode.errDir msg`, where `msg` is the `to_string` rendering of the
  `std::io::Error`.
* Stateful file-system primitives (`fs::write`, `fs::read_to_string`,
  `fs::rename`, `fs::copy`, `fs::create_dir_all`, `Path::exists`) are
  modelled as explicit state passing over `DirFS`, a map from path strings
  to file contents together with a set of existing directories.
* The Tauri window registry is modelled as an explicit list of
  `OverlayWindow` records; `url::Url::parse` of the external `url` crate is
  passed in as an arbitrary parsing function.
-/

/-- A directory entry name: `text` is the OS byte string rendered for
extension matching and path building, `utf8` says whether it is valid UTF-8
(so that `Path::to_str` on a path through it can succeed). -/
structure FName where
  text : String
  utf8 : Bool
deriving DecidableEq, Repr

mutual
/-- A node of the scanned directory tree: a plain file, a readable directory
with its entries, or a directory whose `read_dir` fails with the given
I/O-error message. -/
inductive FsNode where
  | file : FsNode
  | errDir (msg : String) : FsNode
  | dir (entries : FsEntries) : FsNode
deriving DecidableEq, Repr

/-- The ordered entries of a directory, in the order `read_dir` yields them. -/
inductive FsEntries where
  | nil : FsEntries
  | cons (name : FName) (node : FsNode) (rest : FsEntries) : FsEntries
deriving DecidableEq, Repr
end

/-- Rust `Path::extension` on a single file-name component: the portion after
the final dot, `none` when there is no dot or when the only dot is the
leading character (hidden files such as `.gitignore`). -/
def rustExtension (name : String) : Option String :=
  let cs := name.toList
  let extRev := cs.reverse.takeWhile (fun c => c ≠ '.')
  if extRev.length = cs.length then none
  else if cs.length - extRev.length - 1 = 0 then none
  else some (String.mk extRev.reverse)

mutual
/-- Embeds the body of the `for entry in fs::read_dir(dir)?` loop of
`visit_dirs` (lib.rs 41-55) for one child entry.  `childPath` is
`entry.path()` rendered as a string, `childOk` says whether `to_str` on that
path succeeds, `name` is the entry's file name.  A file is pushed exactly
when its extension is `filter` and `to_str` succeeds; a subdirectory is
recursed into; a failing `read_dir` propagates its error (the `?`). -/
def visitChild (childPath : String) (childOk : Bool) (name : FName) :
    FsNode → Except String (List String)
  | FsNode.file =>
      Except.ok
        (if rustExtension name.text == some "filter" && childOk then [childPath] else [])
  | FsNode.errDir m => Except.error m
  | FsNode.dir es => visitEntries childPath childOk es

/-- Embeds the entry loop of `visit_dirs` over the entries of one directory:
results are accumulated in traversal order; the first error aborts the
whole loop. -/
def visitEntries (path : String) (ok : Bool) :
    FsEntries → Except String (List String)
  | FsEntries.nil => Except.ok []
  | FsEntries.cons n node rest =>
      match visitChild (path ++ "/" ++ n.text) (ok && n.utf8) n node with
      | Except.error m => Except.error m
      | Except.ok here =>
          match visitEntries path ok rest with
          | Except.error m => Except.error m
          | Except.ok there => Except.ok (here ++ there)
end

/-- Embeds `visit_dirs` (lib.rs 39-58) applied to the root: a non-directory
root yields nothing (`if dir.is_dir()` guard), an unreadable directory
propagates the `read_dir` error, a readable directory iterates its entries.
The root path string is a Rust `String`, hence always valid UTF-8, so the
`to_str` flag starts at `true`. -/
def visit_dirs (rootPath : String) : FsNode → Except String (List String)
  | FsNode.file => Except.ok []
  | FsNode.errDir m => Except.error m
  | FsNode.dir es => visitEntries rootPath true es

/-- Embeds `scan_filter_files` (lib.rs 30-64).  `root = none` models
`!root.exists()`; otherwise the tree at the root is traversed and the
collected paths or the first I/O-error message is returned. -/
def scan_filter_files (rootPath : String) (root : Option FsNode) :
    Except String (List String) :=
  match root with
  | none => Except.error "Path does not exist"
  | some node => visit_dirs rootPath node

mutual
/-- First I/O-error message hit in traversal order below one child node,
if any. -/
def firstErrN : FsNode → Option String
  | FsNode.file => none
  | FsNode.errDir m => some m
  | FsNode.dir es => firstErrE es

/-- First I/O-error message hit in traversal order in a list of entries,
if any. -/
def firstErrE : FsEntries → Option String
  | FsEntries.nil => none
  | FsEntries.cons _ node rest =>
      match firstErrN node with
      | some m => some m
      | none => firstErrE rest
end

/-- A tree is error-free when no directory below it fails to read. -/
def noErrN (node : FsNode) : Bool := (firstErrN node).isNone

/-- An entry list is error-free when no directory below it fails to read. -/
def noErrE (es : FsEntries) : Bool := (firstErrE es).isNone

mutual
/-- Every entry name below this child node is valid UTF-8. -/
def allUtf8N : FsNode → Bool
  | FsNode.file => true
  | FsNode.errDir _ => true
  | FsNode.dir es => allUtf8E es

/-- Every entry name in this entry list and below it is valid UTF-8. -/
def allUtf8E : FsEntries → Bool
  | FsEntries.nil => true
  | FsEntries.cons n node rest => n.utf8 && allUtf8N node && allUtf8E rest
end

mutual
/-- Number of files below one child node (the node itself included when it is
a file named `name`) whose extension is the marker `filter`. -/
def countFilterN (name : FName) : FsNode → Nat
  | FsNode.file => if rustExtension name.text == some "filter" then 1 else 0
  | FsNode.errDir _ => 0
  | FsNode.dir es => countFilterE es

/-- Number of files below an entry list whose extension is the marker
`filter`. -/
def countFilterE : FsEntries → Nat
  | FsEntries.nil => 0
  | FsEntries.cons n node rest => countFilterN n node + countFilterE rest
end

mutual
/-- What the loop body actually accumulates below one error-free child node:
the paths of the `filter` files whose full path survives `to_str`. -/
def collectChild (childPath : String) (childOk : Bool) (name : FName) :
    FsNode → List String
  | FsNode.file =>
      if rustExtension name.text == some "filter" && childOk then [childPath] else []
  | FsNode.errDir _ => []
  | FsNode.dir es => collectEntries childPath childOk es

/-- What the loop accumulates over an error-free entry list. -/
def collectEntries (path : String) (ok : Bool) : FsEntries → List String
  | FsEntries.nil => []
  | FsEntries.cons n node rest =>
      collectChild (path ++ "/" ++ n.text) (ok && n.utf8) n node ++
        collectEntries path ok rest
end

mutual
/-- Modelled from the spec: the paths of all files below one child node whose
extension is the marker `filter`, with no UTF-8 side condition — the
reference answer the scan is compared against. -/
def specChild (childPath : String) (name : FName) : FsNode → List String
  | FsNode.file =>
      if rustExtension name.text == some "filter" then [childPath] else []
  | FsNode.errDir _ => []
  | FsNode.dir es => specEntries childPath es

/-- Modelled from the spec: the paths of all `filter` files below an entry
list. -/
def specEntries (path : String) : FsEntries → List String
  | FsEntries.nil => []
  | FsEntries.cons n node rest =>
      specChild (path ++ "/" ++ n.text) n node ++ specEntries path rest
end

/-- The concrete tree used to witness the scanner theorems: two `filter`
files at different depths, a `.txt` file, a file with no extension and an
empty subdirectory. -/
def c1Tree : FsEntries :=
  FsEntries.cons ⟨"a.filter", true⟩ FsNode.file
    (FsEntries.cons ⟨"sub", true⟩
      (FsNode.dir (FsEntries.cons ⟨"b.filter", true⟩ FsNode.file
        (FsEntries.cons ⟨"c.txt", true⟩ FsNode.file
          (FsEntries.cons ⟨"noext", true⟩ FsNode.file FsEntries.nil))))
      (FsEntries.cons ⟨"empty", true⟩ (FsNode.dir FsEntries.nil)
        FsEntries.nil))

/-- The concrete tree used to witness C6: a good `filter` file followed by
an unreadable subdirectory. -/
def c6Tree : FsEntries :=
  FsEntries.cons ⟨"a.filter", true⟩ FsNode.file
    (FsEntries.cons ⟨"bad", true⟩ (FsNode.errDir "Permission denied (os error 13)")
      FsEntries.nil)

/-- The concrete tree used to witness C10: one `filter` file whose name is
not valid UTF-8 next to one whose name is. -/
def c10Tree : FsEntries :=
  FsEntries.cons ⟨"bad.filter", false⟩ FsNode.file
    (FsEntries.cons ⟨"good.filter", true⟩ FsNode.file FsEntries.nil)

/-- The file-system state seen by the direct `std::fs` primitives: a partial
map from path strings to file contents and the set of existing
directories.  `fs::write`, `fs::read_to_string`, `fs::rename`, `fs::copy`
and `fs::create_dir_all` are modelled as explicit state transformers over
it. -/
structure DirFS where
  files : String → Option String
  dirs : String → Bool

/-- The path-separator character of the string-level path model. -/
def slashChar : Char := '/'

/-- Rust `Path::parent` in the string-level model: the part before the last
separator, `none` when the path has no separator (for such paths Rust
yields `Some("")` and `fs::create_dir_all("")` is a no-op success, so the
two models agree on behaviour). -/
def parentOf (p : String) : Option String :=
  match p.data.reverse.dropWhile (fun c => c ≠ slashChar) with
  | [] => none
  | _ :: rest => some (String.mk rest.reverse)

/-- The chain of a path and its ancestors obtained by iterating `parentOf`,
with fuel bounding the depth (each parent is strictly shorter, so
`p.length` steps always suffice). -/
def ancestorChain : Nat → String → List String
  | 0, p => [p]
  | fuel + 1, p =>
      p :: (match parentOf p with
            | none => []
            | some q => ancestorChain fuel q)

/-- Embeds `fs::create_dir_all`: the directory and all its ancestors come to
exist; files are untouched. -/
def create_dir_all (st : DirFS) (p : String) : DirFS :=
  { st with dirs := fun q => st.dirs q || (ancestorChain p.length p).contains q }

/-- Embeds `fs::copy(src, dest)`: fails when `src` is not a readable file or
the parent directory of `dest` does not exist; otherwise `dest` now holds
exactly the bytes of `src`, overwriting any previous file at `dest`. -/
def fsCopy (st : DirFS) (src dest : String) : DirFS × Except String Unit :=
  match st.files src with
  | none => (st, Except.error "No such file or directory (os error 2)")
  | some content =>
      match parentOf dest with
      | none =>
          ({ st with files := fun q => if q == dest then some content else st.files q },
           Except.ok ())
      | some par =>
          if st.dirs par then
            ({ st with files := fun q => if q == dest then some content else st.files q },
             Except.ok ())
          else (st, Except.error "No such file or directory (os error 2)")

/-- Embeds `read_file_content` (lib.rs 67-69): `fs::read_to_string` mapped
into the string error channel. -/
def read_file_content (st : DirFS) (p : String) : Except String String :=
  match st.files p with
  | some c => Except.ok c
  | none => Except.error "No such file or directory (os error 2)"

/-- Embeds `write_file_content` (lib.rs 72-74): `fs::write` replaces the
file at `p` with exactly the given content. -/
def write_file_content (st : DirFS) (p : String) (content : String) :
    DirFS × Except String Unit :=
  ({ st with files := fun q => if q == p then some content else st.files q },
   Except.ok ())

/-- Embeds `Path::exists` as used by `rename_filter_file` and
`path_exists`: true when the path names an existing file or directory. -/
def pathExistsB (st : DirFS) (p : String) : Bool :=
  (st.files p).isSome || st.dirs p

/-- Embeds `rename_filter_file` (lib.rs 97-105): when the destination
already exists the distinct collision message is returned before
`fs::rename` is attempted and the state is untouched; otherwise the
underlying rename moves the file. -/
def rename_filter_file (st : DirFS) (oldPath newPath : String) :
    DirFS × Except String Unit :=
  if pathExistsB st newPath then (st, Except.error "目标文件已存在")
  else
    match st.files oldPath with
    | none => (st, Except.error "No such file or directory (os error 2)")
    | some c =>
        ({ st with files := fun q =>
             if q == newPath then some c
             else if q == oldPath then none
             else st.files q },
         Except.ok ())

/-- Embeds the non-Windows branch of `copy_file_powershell`
(powershell_opener.rs 118-129): create the destination's parent directory
recursively when the destination has one, then `fs::copy` with overwrite.
(The Windows branch delegates the same two steps to a PowerShell
`New-Item; Copy-Item` command, whose construction is verified separately
with the escaping claims.) -/
def copy_file_powershell (st : DirFS) (src dest : String) :
    DirFS × Except String Unit :=
  match parentOf dest with
  | some par => fsCopy (create_dir_all st par) src dest
  | none => fsCopy st src dest

/-- The concrete file-system state used to witness C3 and C7. -/
def c3State : DirFS :=
  { files := fun q =>
      if q == "/cfg/old.filter" then some "old content"
      else if q == "/cfg/new.filter" then some "new content"
      else none,
    dirs := fun q => q == "/cfg" }

/-- The single-quote character, written by code point to keep source text
clean. -/
def sqc : Char := Char.ofNat 39

/-- The single-quote character as a one-character string. -/
def sqs : String := String.mk [sqc]

/-- Character-level body of Rust `s.replace("'", "''")`: every single quote
is doubled, every other character is kept. -/
def escChars : List Char → List Char
  | [] => []
  | c :: cs => if c = sqc then sqc :: sqc :: escChars cs else c :: escChars cs

/-- Embeds `escape_single_quotes` (powershell_opener.rs 9-11). -/
def escape_single_quotes (s : String) : String :=
  String.mk (escChars s.data)

/-- One path argument as it is interpolated into every PowerShell command
line: escaped and wrapped in single quotes. -/
def quoteArg (p : String) : String :=
  sqs ++ escape_single_quotes p ++ sqs

/-- Embeds the command string built by `open_folder`
(powershell_opener.rs 20). -/
def open_folder_ps_cmd (path : String) : String :=
  "Start-Process -FilePath " ++ sqs ++ "explorer" ++ sqs ++ " -ArgumentList " ++
    quoteArg path

/-- Embeds the command string built by `open_file`
(powershell_opener.rs 58). -/
def open_file_ps_cmd (path : String) : String :=
  "Start-Process -FilePath " ++ quoteArg path

/-- Embeds the command string built by `copy_file_powershell` on the primary
platform (powershell_opener.rs 101-104): create the destination's parent,
then copy with overwrite, each path interpolated escaped-and-quoted. -/
def copy_file_ps_cmd (src dest : String) : String :=
  "New-Item -ItemType Directory -Force -Path (Split-Path -Path " ++
    quoteArg dest ++ " -Parent); Copy-Item -Path " ++ quoteArg src ++
    " -Destination " ++ quoteArg dest ++ " -Force"

mutual
/-- PowerShell single-quoted-literal scanning after an opening quote: a
doubled quote stands for one literal quote, any other character stands for
itself, a lone quote closes the literal; `none` on an unterminated
literal.  Returns the literal's value and the unconsumed remainder. -/
def psQuotedBody : List Char → Option (List Char × List Char)
  | [] => none
  | c :: cs =>
      if c = sqc then psQuotedAfterQuote cs
      else (psQuotedBody cs).map (fun pr => (c :: pr.1, pr.2))

/-- Scanning state just after a quote inside a single-quoted literal: a
second quote means one escaped literal quote, anything else means the
literal closed right there. -/
def psQuotedAfterQuote : List Char → Option (List Char × List Char)
  | [] => some ([], [])
  | d :: cs2 =>
      if d = sqc then (psQuotedBody cs2).map (fun pr => (sqc :: pr.1, pr.2))
      else some ([], d :: cs2)
end

/-- PowerShell single-quoted-literal parsing: the input must start with an
opening quote; yields the literal's value and the unconsumed remainder. -/
def psParseQuoted : List Char → Option (List Char × List Char)
  | [] => none
  | c :: cs => if c = sqc then psQuotedBody cs else none

/-- A concrete path containing a single quote, used to witness C2. -/
def c2Path : String := "C:/it" ++ sqs ++ "s dir"

/-- A secondary webview window as configured by `create_overlay_window`
(lib.rs 124-132): its label, the parsed external URL it loads, and the
builder settings.  The injected initialization script is an opaque payload
and is not modelled beyond its presence. -/
structure OverlayWindow where
  label : String
  url : String
  title : String
  decorations : Bool
  transparent : Bool
  skipTaskbar : Bool
  visible : Bool
  widthPx : Nat
  heightPx : Nat
  hasInitScript : Bool
deriving DecidableEq, Repr

/-- The window registry of the Tauri app handle: the list of live webview
windows, looked up by label. -/
structure WinState where
  windows : List OverlayWindow
deriving DecidableEq, Repr

/-- The window built at lib.rs 124-132 for a label and a parsed URL. -/
def overlayWindowFor (label url : String) : OverlayWindow :=
  { label := label, url := url, title := "Overlay", decorations := false,
    transparent := false, skipTaskbar := true, visible := false,
    widthPx := 800, heightPx := 600, hasInitScript := true }

/-- Embeds `get_webview_window(&label).is_some()`. -/
def hasWindow (st : WinState) (label : String) : Bool :=
  st.windows.any (fun w => w.label == label)

/-- Embeds `create_overlay_window` (lib.rs 108-136).  URL parsing is done by
the external `url` crate, so the parser is passed in as an arbitrary
function `parse`; a successfully built window always registers (build
failure of the windowing subsystem is outside the embedded control flow).
A call first checks the label and returns a no-op success when the window
exists; only then is the URL parsed, and only on parse success is a window
constructed. -/
def create_overlay_window (parse : String → Except String String)
    (st : WinState) (label targetUrl : String) :
    WinState × Except String Unit :=
  if hasWindow st label then (st, Except.ok ())
  else
    match parse targetUrl with
    | Except.error e => (st, Except.error e)
    | Except.ok u =>
        ({ windows := st.windows ++ [overlayWindowFor label u] }, Except.ok ())

mutual
/-- On an error-free child node the loop body succeeds and accumulates
exactly `collectChild`. -/
theorem visitChild_ok :
    ∀ (p : String) (ok : Bool) (n : FName) (node : FsNode),
      noErrN node = true →
      visitChild p ok n node = Except.ok (collectChild p ok n node)
  | _, _, _, FsNode.file, _ => rfl
  | _, _, _, FsNode.errDir m, h => by
      simp [noErrN, firstErrN] at h
  | p, ok, n, FsNode.dir es, h => by
      have h' : noErrE es = true := by
        simpa [noErrN, firstErrN, noErrE] using h
      simpa [visitChild, collectChild] using visitEntries_ok p ok es h'

/-- On an error-free entry list the loop succeeds and accumulates exactly
`collectEntries`. -/
theorem visitEntries_ok :
    ∀ (p : String) (ok : Bool) (es : FsEntries),
      noErrE es = true →
      visitEntries p ok es = Except.ok (collectEntries p ok es)
  | _, _, FsEntries.nil, _ => rfl
  | p, ok, FsEntries.cons n node rest, h => by
      have hn : noErrN node = true := by
        simp only [noErrE, firstErrE] at h ⊢
        simp only [noErrN]
        cases he : firstErrN node with
        | none => rfl
        | some m => simp [he] at h
      have hr : noErrE rest = true := by
        simp only [noErrE, firstErrE] at h ⊢
        cases he : firstErrN node with
        | none => simpa [he] using h
        | some m => simp [he] at h
      have e1 := visitChild_ok (p ++ "/" ++ n.text) (ok && n.utf8) n node hn
      have e2 := visitEntries_ok p ok rest hr
      simp [visitEntries, collectEntries, e1, e2]
end

mutual
/-- When every name below is valid UTF-8 and the path so far survived
`to_str`, the loop body accumulates the spec's reference answer. -/
theorem collectChild_spec :
    ∀ (p : String) (n : FName) (node : FsNode),
      allUtf8N node = true →
      collectChild p true n node = specChild p n node
  | _, _, FsNode.file, _ => by simp [collectChild, specChild]
  | _, _, FsNode.errDir m, _ => rfl
  | p, n, FsNode.dir es, h => by
      have h' : allUtf8E es = true := by simpa [allUtf8N] using h
      simpa [collectChild, specChild] using collectEntries_spec p es h'

/-- When every name below is valid UTF-8 and the path so far survived
`to_str`, the loop accumulates the spec's reference answer. -/
theorem collectEntries_spec :
    ∀ (p : String) (es : FsEntries),
      allUtf8E es = true →
      collectEntries p true es = specEntries p es
  | _, FsEntries.nil, _ => rfl
  | p, FsEntries.cons n node rest, h => by
      have hn : n.utf8 = true := by
        simp only [allUtf8E, Bool.and_eq_true] at h
        exact h.1.1
      have hnode : allUtf8N node = true := by
        simp only [allUtf8E, Bool.and_eq_true] at h
        exact h.1.2
      have hrest : allUtf8E rest = true := by
        simp only [allUtf8E, Bool.and_eq_true] at h
        exact h.2
      have e1 := collectChild_spec (p ++ "/" ++ n.text) n node hnode
      have e2 := collectEntries_spec p rest hrest
      simp [collectEntries, specEntries, hn, e1, e2]
end

mutual
/-- The spec's reference answer below one child node has exactly as many
paths as there are `filter` files there. -/
theorem specChild_length :
    ∀ (p : String) (n : FName) (node : FsNode),
      (specChild p n node).length = countFilterN n node
  | _, n, FsNode.file => by
      by_cases h : rustExtension n.text == some "filter" <;>
        simp [specChild, countFilterN, h]
  | _, _, FsNode.errDir m => rfl
  | p, n, FsNode.dir es => by
      simpa [specChild, countFilterN] using specEntries_length p es

/-- The spec's reference answer below an entry list has exactly as many
paths as there are `filter` files there. -/
theorem specEntries_length :
    ∀ (p : String) (es : FsEntries),
      (specEntries p es).length = countFilterE es
  | _, FsEntries.nil => rfl
  | p, FsEntries.cons n node rest => by
      simp [specEntries, countFilterE, specChild_length (p ++ "/" ++ n.text) n node,
        specEntries_length p rest]
end

mutual
/-- The loop never accumulates more paths than there are `filter` files
below one child node. -/
theorem collectChild_length_le :
    ∀ (p : String) (ok : Bool) (n : FName) (node : FsNode),
      (collectChild p ok n node).length ≤ countFilterN n node
  | _, ok, n, FsNode.file => by
      by_cases h : rustExtension n.text == some "filter" <;>
        by_cases hok : ok = true <;>
        simp [collectChild, countFilterN, h, hok]
  | _, _, _, FsNode.errDir m => Nat.le_refl 0
  | p, ok, n, FsNode.dir es => by
      simpa [collectChild, countFilterN] using collectEntries_length_le p ok es

/-- The loop never accumulates more paths than there are `filter` files
below an entry list. -/
theorem collectEntries_length_le :
    ∀ (p : String) (ok : Bool) (es : FsEntries),
      (collectEntries p ok es).length ≤ countFilterE es
  | _, _, FsEntries.nil => Nat.le_refl 0
  | p, ok, FsEntries.cons n node rest => by
      have h1 := collectChild_length_le (p ++ "/" ++ n.text) (ok && n.utf8) n node
      have h2 := collectEntries_length_le p ok rest
      simp only [collectEntries, countFilterE, List.length_append]
      exact Nat.add_le_add h1 h2
end

/-- C1: for every root directory tree in which every directory read succeeds
and every entry name is valid UTF-8, `scan_filter_files` succeeds and
returns exactly the paths of the files whose extension is the marker
`filter`, at arbitrary depth — their number equals the number of such files,
and files with another or no extension and empty subdirectories neither
appear in the result nor cause an error. -/
theorem scan_filter_files_exact (rootPath : String) (es : FsEntries)
    (hne : noErrE es = true) (hu : allUtf8E es = true) :
    scan_filter_files rootPath (some (FsNode.dir es)) =
      Except.ok (specEntries rootPath es) ∧
    (specEntries rootPath es).length = countFilterE es := by
  constructor
  · have h1 := visitEntries_ok rootPath true es hne
    have h2 := collectEntries_spec rootPath es hu
    simp [scan_filter_files, visit_dirs, h1, h2]
  · exact specEntries_length rootPath es

/-- Witness for C1 at the concrete tree `c1Tree`. -/
theorem scan_filter_files_exact_witness :
    (noErrE c1Tree = true ∧ allUtf8E c1Tree = true) ∧
    (scan_filter_files "/cfg" (some (FsNode.dir c1Tree)) =
        Except.ok (specEntries "/cfg" c1Tree) ∧
      (specEntries "/cfg" c1Tree).length = countFilterE c1Tree) ∧
    specEntries "/cfg" c1Tree = ["/cfg/a.filter", "/cfg/sub/b.filter"] :=
  ⟨⟨rfl, rfl⟩, scan_filter_files_exact "/cfg" c1Tree rfl rfl, rfl⟩

/-- C5: on a root path that does not exist, `scan_filter_files` fails with
the not-found error message and no part of the tree is traversed — the
error is produced before `visit_dirs` is ever invoked. -/
theorem scan_filter_files_missing_root (rootPath : String) :
    scan_filter_files rootPath none = Except.error "Path does not exist" :=
  rfl

mutual
/-- When an I/O error occurs somewhere below a child node, the loop body
aborts with exactly the first such error message. -/
theorem visitChild_err :
    ∀ (p : String) (ok : Bool) (n : FName) (node : FsNode) (m : String),
      firstErrN node = some m →
      visitChild p ok n node = Except.error m
  | _, _, _, FsNode.file, m, h => by simp [firstErrN] at h
  | _, _, _, FsNode.errDir m', m, h => by
      simp only [firstErrN, Option.some.injEq] at h
      simp [visitChild, h]
  | p, ok, n, FsNode.dir es, m, h => by
      have h' : firstErrE es = some m := by simpa [firstErrN] using h
      simpa [visitChild] using visitEntries_err p ok es m h'

/-- When an I/O error occurs somewhere below an entry list, the loop aborts
with exactly the first such error message. -/
theorem visitEntries_err :
    ∀ (p : String) (ok : Bool) (es : FsEntries) (m : String),
      firstErrE es = some m →
      visitEntries p ok es = Except.error m
  | _, _, FsEntries.nil, m, h => by simp [firstErrE] at h
  | p, ok, FsEntries.cons n node rest, m, h => by
      cases he : firstErrN node with
      | some m' =>
          have hm : m' = m := by
            simp only [firstErrE, he, Option.some.injEq] at h
            exact h
          subst hm
          have e1 := visitChild_err (p ++ "/" ++ n.text) (ok && n.utf8) n node m' he
          simp [visitEntries, e1]
      | none =>
          have hr : firstErrE rest = some m := by
            simpa [firstErrE, he] using h
          have hn : noErrN node = true := by simp [noErrN, he]
          have e1 := visitChild_ok (p ++ "/" ++ n.text) (ok && n.utf8) n node hn
          have e2 := visitEntries_err p ok rest m hr
          simp [visitEntries, e1, e2]
end

/-- C6: if reading any directory fails during the scan — whether the root
itself or any directory below it — the whole traversal aborts and
`scan_filter_files` returns an error carrying the underlying I/O message;
no partial list of matches is returned. -/
theorem scan_filter_files_aborts_on_io_error (rootPath : String)
    (es : FsEntries) (m : String) (h : firstErrE es = some m) :
    scan_filter_files rootPath (some (FsNode.dir es)) = Except.error m ∧
    scan_filter_files rootPath (some (FsNode.errDir m)) = Except.error m := by
  constructor
  · simpa [scan_filter_files, visit_dirs] using
      visitEntries_err rootPath true es m h
  · rfl

/-- Witness for C6 at the concrete tree `c6Tree`: the match found before the
failing directory is discarded and only the error is returned. -/
theorem scan_filter_files_aborts_on_io_error_witness :
    firstErrE c6Tree = some "Permission denied (os error 13)" ∧
    scan_filter_files "/cfg" (some (FsNode.dir c6Tree)) =
      Except.error "Permission denied (os error 13)" :=
  ⟨rfl,
   (scan_filter_files_aborts_on_io_error "/cfg" c6Tree
      "Permission denied (os error 13)" rfl).1⟩

/-- C10: on any error-free tree the scan succeeds and returns the `filter`
files whose full path is valid UTF-8; a `filter` file whose path fails
`to_str` is silently omitted rather than reported, so the scan can succeed
with fewer paths than there are matching files on disk. -/
theorem scan_filter_files_drops_non_utf8 (rootPath : String)
    (es : FsEntries) (hne : noErrE es = true) :
    scan_filter_files rootPath (some (FsNode.dir es)) =
      Except.ok (collectEntries rootPath true es) ∧
    (collectEntries rootPath true es).length ≤ countFilterE es := by
  constructor
  · simpa [scan_filter_files, visit_dirs] using
      visitEntries_ok rootPath true es hne
  · exact collectEntries_length_le rootPath true es

/-- Witness for C10 at the concrete tree `c10Tree`: two `filter` files are
on disk but the scan succeeds with only the UTF-8-representable one. -/
theorem scan_filter_files_drops_non_utf8_witness :
    noErrE c10Tree = true ∧
    (scan_filter_files "/cfg" (some (FsNode.dir c10Tree)) =
        Except.ok (collectEntries "/cfg" true c10Tree) ∧
      (collectEntries "/cfg" true c10Tree).length ≤ countFilterE c10Tree) ∧
    collectEntries "/cfg" true c10Tree = ["/cfg/good.filter"] ∧
    countFilterE c10Tree = 2 :=
  ⟨rfl, scan_filter_files_drops_non_utf8 "/cfg" c10Tree rfl, rfl, rfl⟩

/-- C8: writing a text to a path and reading that path back yields exactly
the text written, for any text including the empty string (Lean strings are
Unicode, so multi-byte characters are covered by the quantifier). -/
theorem write_then_read_roundtrip (st : DirFS) (p s : String) :
    read_file_content (write_file_content st p s).1 p = Except.ok s := by
  simp [read_file_content, write_file_content]

/-- C3: when the destination of a rename already exists, the call fails with
the distinct collision message before the underlying `fs::rename` is
attempted, the whole state is returned unchanged, and in particular the
files at both the source and the destination are exactly as before. -/
theorem rename_filter_file_dest_exists (st : DirFS) (a b : String)
    (h : pathExistsB st b = true) :
    rename_filter_file st a b = (st, Except.error "目标文件已存在") ∧
    (rename_filter_file st a b).1.files a = st.files a ∧
    (rename_filter_file st a b).1.files b = st.files b := by
  refine ⟨?_, ?_, ?_⟩ <;> simp [rename_filter_file, h]

/-- Witness for C3 at `c3State`: renaming onto the existing
`/cfg/new.filter` fails with the collision message and changes nothing. -/
theorem rename_filter_file_dest_exists_witness :
    pathExistsB c3State "/cfg/new.filter" = true ∧
    rename_filter_file c3State "/cfg/old.filter" "/cfg/new.filter" =
      (c3State, Except.error "目标文件已存在") :=
  ⟨rfl,
   (rename_filter_file_dest_exists c3State "/cfg/old.filter" "/cfg/new.filter"
      rfl).1⟩

/-- A path is always the head of its own ancestor chain. -/
theorem ancestorChain_mem_self (n : Nat) (p : String) :
    p ∈ ancestorChain n p := by
  cases n <;> simp [ancestorChain]

/-- C7: whenever the source is a readable file, `copy_file_powershell`
succeeds, the destination's parent directory exists afterwards even if it
did not before (it is created recursively first), the destination holds
exactly the bytes of the source — overwriting whatever was there — and no
other file is touched. -/
theorem copy_file_powershell_creates_parent_and_copies
    (st : DirFS) (src dest c : String) (h : st.files src = some c) :
    (copy_file_powershell st src dest).2 = Except.ok () ∧
    (copy_file_powershell st src dest).1.files dest = some c ∧
    (∀ par, parentOf dest = some par →
      (copy_file_powershell st src dest).1.dirs par = true) ∧
    (∀ q, q ≠ dest → (copy_file_powershell st src dest).1.files q = st.files q) := by
  cases hp : parentOf dest with
  | none =>
      refine ⟨?_, ?_, ?_, ?_⟩
      · simp [copy_file_powershell, hp, fsCopy, h]
      · simp [copy_file_powershell, hp, fsCopy, h]
      · intro par hpar
        simp [hp] at hpar
      · intro q hq
        simp [copy_file_powershell, hp, fsCopy, h, hq]
  | some par =>
      have hmem : par ∈ ancestorChain par.length par :=
        ancestorChain_mem_self par.length par
      refine ⟨?_, ?_, ?_, ?_⟩
      · simp [copy_file_powershell, hp, fsCopy, create_dir_all, h, hmem]
      · simp [copy_file_powershell, hp, fsCopy, create_dir_all, h, hmem]
      · intro par' hpar'
        cases Option.some.inj hpar'
        simp [copy_file_powershell, hp, fsCopy, create_dir_all, h, hmem]
      · intro q hq
        simp [copy_file_powershell, hp, fsCopy, create_dir_all, h, hmem, hq]

/-- Witness for C7 at `c3State`: copying into `/cfg/snd/x.wav`, whose parent
directory `/cfg/snd` does not exist beforehand, succeeds, creates the
parent and reproduces the source bytes at the destination. -/
theorem copy_file_powershell_creates_parent_and_copies_witness :
    c3State.files "/cfg/old.filter" = some "old content" ∧
    c3State.dirs "/cfg/snd" = false ∧
    ((copy_file_powershell c3State "/cfg/old.filter" "/cfg/snd/x.wav").2 =
        Except.ok () ∧
      (copy_file_powershell c3State "/cfg/old.filter" "/cfg/snd/x.wav").1.files
          "/cfg/snd/x.wav" = some "old content" ∧
      (∀ par, parentOf "/cfg/snd/x.wav" = some par →
        (copy_file_powershell c3State "/cfg/old.filter" "/cfg/snd/x.wav").1.dirs
          par = true) ∧
      (∀ q, q ≠ "/cfg/snd/x.wav" →
        (copy_file_powershell c3State "/cfg/old.filter" "/cfg/snd/x.wav").1.files
          q = c3State.files q)) :=
  ⟨rfl, rfl,
   copy_file_powershell_creates_parent_and_copies c3State "/cfg/old.filter"
     "/cfg/snd/x.wav" "old content" rfl⟩

/-- Scanning the escaped form of any character list followed by a closing
quote and a remainder that does not begin with a quote recovers the
original characters and the remainder exactly. -/
theorem psQuotedBody_escChars (xs : List Char) :
    ∀ rest : List Char, rest.head? ≠ some sqc →
      psQuotedBody (escChars xs ++ sqc :: rest) = some (xs, rest) := by
  induction xs with
  | nil =>
      intro rest hrest
      cases rest with
      | nil => simp [escChars, psQuotedBody, psQuotedAfterQuote]
      | cons r rs =>
          have hr : r ≠ sqc := by
            intro he
            exact hrest (by simp [he])
          simp [escChars, psQuotedBody, psQuotedAfterQuote, hr]
  | cons x xs ih =>
      intro rest hrest
      by_cases hx : x = sqc
      · subst hx
        simp [escChars, psQuotedBody, psQuotedAfterQuote, ih rest hrest]
      · simp [escChars, psQuotedBody, psQuotedAfterQuote, hx, ih rest hrest]

/-- C2: every single quote in a path is doubled and the result wrapped in
single quotes; parsing the quoted form back under PowerShell's
single-quoting rules — with any quote-free continuation of the command
line after it — yields the original path unmodified as a single argument,
and this escaped-and-quoted form is the exact shape in which the path
arguments of `open_folder`, `open_file` and both arguments of
`copy_file_powershell` are interpolated into their command strings. -/
theorem escape_single_quotes_roundtrip (p src dest r : String)
    (hr : r.data.head? ≠ some sqc) :
    psParseQuoted ((quoteArg p ++ r).data) = some (p.data, r.data) ∧
    open_folder_ps_cmd p =
      "Start-Process -FilePath " ++ sqs ++ "explorer" ++ sqs ++
        " -ArgumentList " ++ quoteArg p ∧
    open_file_ps_cmd p = "Start-Process -FilePath " ++ quoteArg p ∧
    copy_file_ps_cmd src dest =
      "New-Item -ItemType Directory -Force -Path (Split-Path -Path " ++
        quoteArg dest ++ " -Parent); Copy-Item -Path " ++ quoteArg src ++
        " -Destination " ++ quoteArg dest ++ " -Force" := by
  refine ⟨?_, rfl, rfl, rfl⟩
  have hdata : (quoteArg p ++ r).data =
      sqc :: (escChars p.data ++ sqc :: r.data) := by
    simp [quoteArg, sqs, escape_single_quotes, String.data_append]
  rw [hdata]
  simp [psParseQuoted, psQuotedBody_escChars p.data r.data hr]

/-- Witness for C2 at `c2Path` and the continuation used after the source
argument of the copy command. -/
theorem escape_single_quotes_roundtrip_witness :
    (" -Destination").data.head? ≠ some sqc ∧
    escape_single_quotes c2Path = "C:/it" ++ sqs ++ sqs ++ "s dir" ∧
    (psParseQuoted ((quoteArg c2Path ++ " -Destination").data) =
        some (c2Path.data, (" -Destination").data) ∧
      open_folder_ps_cmd c2Path =
        "Start-Process -FilePath " ++ sqs ++ "explorer" ++ sqs ++
          " -ArgumentList " ++ quoteArg c2Path ∧
      open_file_ps_cmd c2Path = "Start-Process -FilePath " ++ quoteArg c2Path ∧
      copy_file_ps_cmd c2Path c2Path =
        "New-Item -ItemType Directory -Force -Path (Split-Path -Path " ++
          quoteArg c2Path ++ " -Parent); Copy-Item -Path " ++ quoteArg c2Path ++
          " -Destination " ++ quoteArg c2Path ++ " -Force") :=
  ⟨by decide, by decide,
   escape_single_quotes_roundtrip c2Path c2Path c2Path " -Destination"
     (by decide)⟩

/-- C4: `create_overlay_window` is idempotent per label — a call whose label
is already present succeeds without touching the registry, so starting from
an empty registry, two calls with the same label and different URLs leave
exactly one window, loading the URL of the first call, and both calls
succeed. -/
theorem create_overlay_window_idempotent
    (parse : String → Except String String) (label u1 u2 v1 : String)
    (h1 : parse u1 = Except.ok v1) :
    (∀ st : WinState, hasWindow st label = true →
      create_overlay_window parse st label u2 = (st, Except.ok ())) ∧
    (create_overlay_window parse ⟨[]⟩ label u1).2 = Except.ok () ∧
    (create_overlay_window parse ⟨[]⟩ label u1).1.windows =
      [overlayWindowFor label v1] ∧
    create_overlay_window parse
        (create_overlay_window parse ⟨[]⟩ label u1).1 label u2 =
      ((create_overlay_window parse ⟨[]⟩ label u1).1, Except.ok ()) := by
  have hempty : hasWindow ⟨[]⟩ label = false := rfl
  have hfirst : create_overlay_window parse ⟨[]⟩ label u1 =
      (⟨[overlayWindowFor label v1]⟩, Except.ok ()) := by
    simp [create_overlay_window, hempty, h1]
  refine ⟨?_, ?_, ?_, ?_⟩
  · intro st hst
    simp [create_overlay_window, hst]
  · rw [hfirst]
  · rw [hfirst]
  · rw [hfirst]
    have hlater : hasWindow ⟨[overlayWindowFor label v1]⟩ label = true := by
      simp [hasWindow, overlayWindowFor]
    simp [create_overlay_window, hlater]

/-- Witness for C4: the label `overlay` created with one URL and then
called again with a different URL. -/
theorem create_overlay_window_idempotent_witness :
    (Except.ok "https://a.example/" =
        (Except.ok "https://a.example/" : Except String String)) ∧
    ((∀ st : WinState, hasWindow st "overlay" = true →
      create_overlay_window Except.ok st "overlay" "https://b.example/" =
        (st, Except.ok ())) ∧
    (create_overlay_window Except.ok ⟨[]⟩ "overlay" "https://a.example/").2 =
      Except.ok () ∧
    (create_overlay_window Except.ok ⟨[]⟩ "overlay" "https://a.example/").1.windows =
      [overlayWindowFor "overlay" "https://a.example/"] ∧
    create_overlay_window Except.ok
        (create_overlay_window Except.ok ⟨[]⟩ "overlay" "https://a.example/").1
        "overlay" "https://b.example/" =
      ((create_overlay_window Except.ok ⟨[]⟩ "overlay" "https://a.example/").1,
        Except.ok ())) :=
  ⟨rfl,
   create_overlay_window_idempotent Except.ok "overlay" "https://a.example/"
     "https://b.example/" "https://a.example/" rfl⟩

/-- C9 as frozen is refuted: a call whose target URL fails to parse does
not always return a URL-parse error — when a window with the label already
exists, the label check comes first (lib.rs 109-111) and the call succeeds
as a no-op without ever parsing the URL. -/
theorem create_overlay_window_badurl_counterexample :
    (fun _ : String =>
        (Except.error "relative URL without a base" : Except String String))
        "::bad::" = Except.error "relative URL without a base" ∧
    create_overlay_window
        (fun _ => Except.error "relative URL without a base")
        ⟨[overlayWindowFor "overlay" "https://a.example/"]⟩
        "overlay" "::bad::" =
      (⟨[overlayWindowFor "overlay" "https://a.example/"]⟩, Except.ok ()) := by
  constructor
  · rfl
  · have h : hasWindow ⟨[overlayWindowFor "overlay" "https://a.example/"]⟩
        "overlay" = true := by
      simp [hasWindow, overlayWindowFor]
    simp [create_overlay_window, h]

/-- C9 amended: on every call for which no window with the given label
exists yet, a target URL that fails to parse makes the call return exactly
the parse error, and no window is constructed — the registry is unchanged. -/
theorem create_overlay_window_badurl_error
    (parse : String → Except String String) (st : WinState)
    (label url e : String) (hno : hasWindow st label = false)
    (hp : parse url = Except.error e) :
    create_overlay_window parse st label url = (st, Except.error e) := by
  simp [create_overlay_window, hno, hp]

/-- Witness for the amended C9: an empty registry and a parser rejecting
the URL. -/
theorem create_overlay_window_badurl_error_witness :
    hasWindow ⟨[]⟩ "overlay" = false ∧
    (fun _ : String =>
        (Except.error "relative URL without a base" : Except String String))
        "::bad::" = Except.error "relative URL without a base" ∧
    create_overlay_window
        (fun _ => Except.error "relative URL without a base")
        ⟨[]⟩ "overlay" "::bad::" =
      (⟨[]⟩, Except.error "relative URL without a base") :=
  ⟨rfl, rfl,
   create_overlay_window_badurl_error
     (fun _ => Except.error "relative URL without a base")
     ⟨[]⟩ "overlay" "::bad::" "relative URL without a base" rfl rfl⟩
